import Mathlib

/-!
Verification of `src/midi_interface/midi_interaction.py` (the song-structure
performance loop).  The Python data model and the tick loop of
`SongStructureMidiInteraction.run` are embedded shallowly: times are rationals,
protobuf `NoteSequence` objects are records of note lists, the external
generator is an abstract function parameter, and the mutable loop state is
threaded explicitly through a per-tick step function.
-/

/-- The `Note` namedtuple (line 34): fields `pitch, velocity, start, end`
(`end` is a Lean keyword, rendered `end_`). -/
structure Note where
  pitch : ℤ
  velocity : ℤ
  start : ℚ
  end_ : ℚ
deriving Repr, DecidableEq

/-- A note of a protobuf `NoteSequence` (the fields the scheduler reads and
writes: `start_time`, `end_time`, plus pitch and velocity). -/
structure SeqNote where
  pitch : ℤ
  velocity : ℤ
  start_time : ℚ
  end_time : ℚ
deriving Repr, DecidableEq

/-- The slice of a protobuf `NoteSequence` that the loop manipulates: the note
list and `total_time`.  `NoteSequence()` is the empty sequence. -/
structure NoteSequence where
  notes : List SeqNote
  total_time : ℚ
deriving Repr, DecidableEq

/-- `NoteSequence()`: a freshly constructed, empty sequence. -/
def NoteSequence.empty : NoteSequence := ⟨[], 0⟩

/-- `adjust_sequence_times` (lines 37-45): copy the sequence, shifting every
note's start/end time and the total time by `delta_time`. -/
def adjust_sequence_times (sequence : NoteSequence) (delta_time : ℚ) : NoteSequence :=
  { notes := sequence.notes.map fun n =>
      { n with start_time := n.start_time + delta_time, end_time := n.end_time + delta_time }
    total_time := sequence.total_time + delta_time }

/-- `generate_midi_chord` (lines 48-49).  Note the quirk of the source: the
namedtuple's `end` field receives the bare `duration` argument, not
`start_time + duration`; the caller at line 342 compensates by adding
`note.start + note.end`.  Defaults in the source are `duration=2`,
`velocity=80`; call sites pass them explicitly here. -/
def generate_midi_chord (notes : List ℤ) (start_time : ℚ) (duration : ℚ) (velocity : ℤ) :
    List Note :=
  notes.map fun note => ⟨note, velocity, start_time, duration⟩

/-- Modelled from the spec: `trim_note_sequence` is a Magenta library utility
(imported at line 25, not part of this repository); per spec §4.3 step 3 the
gateway "trims the result strictly to the target window", so the model keeps
exactly the notes lying inside `[start_time, end_time]` and caps the total
time at the window end. -/
def trim_note_sequence (sequence : NoteSequence) (start_time end_time : ℚ) : NoteSequence :=
  { notes := sequence.notes.filter fun n =>
      decide (start_time ≤ n.start_time) && decide (n.end_time ≤ end_time)
    total_time := end_time }

/-- The fields of protobuf `GeneratorOptions` that `_generate` fills in
(lines 199-204): input sections, generate sections (pairs of start/end times)
and the temperature argument. -/
structure GeneratorOptions where
  input_sections : List (ℚ × ℚ)
  generate_sections : List (ℚ × ℚ)
  temperature : ℚ
deriving Repr, DecidableEq

/-- A record of one invocation of the external generator: which generator
index was used, the (already re-anchored) input sequence, and the options. -/
structure GenCall where
  gen_index : ℕ
  input_sequence : NoteSequence
  options : GeneratorOptions
deriving Repr, DecidableEq

/-- The external generators (`self._sequence_generators`): an abstract family
of functions, indexed as in the source (0 = melody, 1 = bass, 2 = drums). -/
def Generators : Type := ℕ → NoteSequence → GeneratorOptions → NoteSequence

/-- `SongStructureMidiInteraction._generate` (lines 194-214).  Returns the
response sequence together with the log of generator invocations made (the
source makes exactly one).  `zero_time` is the capture start time. -/
def _generate (gens : Generators) (temperature : ℚ) (gen_index : ℕ)
    (input_sequence : NoteSequence) (zero_time : ℚ)
    (response_start_time response_end_time : ℚ) : NoteSequence × List GenCall :=
  let rst := response_start_time - zero_time
  let ret := response_end_time - zero_time
  let generator_options : GeneratorOptions :=
    { input_sections := [(0, rst)], generate_sections := [(rst, ret)],
      temperature := temperature }
  let adjusted_input := adjust_sequence_times input_sequence (-zero_time)
  let response_sequence := gens gen_index adjusted_input generator_options
  let trimmed := trim_note_sequence response_sequence rst ret
  (adjust_sequence_times trimmed zero_time,
   [⟨gen_index, adjusted_input, generator_options⟩])

/-- C7: the generation gateway shifts the input and the window by minus the
capture-zero time, calls the generator exactly once with input section
`[0, start - zero]`, generate section `[start - zero, end - zero]` and the
current temperature, trims to that window, and re-anchors by adding the zero
time back, so every returned note lies within the absolute window
`[start, end]`. -/
theorem generate_gateway_window (gens : Generators) (temperature : ℚ) (gen_index : ℕ)
    (input_sequence : NoteSequence) (zero_time response_start_time response_end_time : ℚ) :
    (_generate gens temperature gen_index input_sequence zero_time
        response_start_time response_end_time).2 =
      [⟨gen_index, adjust_sequence_times input_sequence (-zero_time),
        ⟨[(0, response_start_time - zero_time)],
         [(response_start_time - zero_time, response_end_time - zero_time)],
         temperature⟩⟩] ∧
    ∀ n ∈ (_generate gens temperature gen_index input_sequence zero_time
        response_start_time response_end_time).1.notes,
      response_start_time ≤ n.start_time ∧ n.end_time ≤ response_end_time := by
  constructor
  · rfl
  · intro n hn
    simp only [_generate, adjust_sequence_times, trim_note_sequence, List.mem_map,
      List.mem_filter] at hn
    obtain ⟨m, ⟨_, hm⟩, rfl⟩ := hn
    simp only [Bool.and_eq_true, decide_eq_true_eq] at hm
    constructor
    · have := hm.1; simp only []; linarith
    · have := hm.2; simp only []; linarith

/-- Witness for C7: a concrete generator output note inside the window is
reported inside the absolute window. -/
theorem generate_gateway_window_witness :
    (1 : ℚ) ≤ (SeqNote.mk 60 100 1 2).start_time ∧
      (SeqNote.mk 60 100 1 2).end_time ≤ (2 : ℚ) :=
  (generate_gateway_window (fun _ _ _ => ⟨[⟨60, 100, 1, 2⟩], 3⟩) 1 0
    NoteSequence.empty 0 1 2).2 ⟨60, 100, 1, 2⟩
    (by norm_num [_generate, trim_note_sequence, adjust_sequence_times])

/-- `CacheItem` (lines 58-62): a cached sequence plus its anchor time. -/
structure CacheItem where
  sequence : NoteSequence
  response_start_time : ℚ
deriving Repr, DecidableEq

/-- One per-track cache (`MELODY_CACHE` / `BASS_CACHE` / `DRUM_CACHE`): a
dictionary from part names to cache items.  `__init__` (lines 134-136) maps
every part name to `None`; an absent key here models a `None` entry, which is
falsy in the truthiness tests of lines 303/313/323. -/
abbrev Cache : Type := List (String × CacheItem)

/-- Dictionary lookup, `None` (absent) included. -/
def cacheGet (c : Cache) (k : String) : Option CacheItem :=
  match c with
  | [] => none
  | (k', v) :: rest => if k' = k then some v else cacheGet rest k

/-- Dictionary store `cache[k] = v` (lines 311/321/331). -/
def cacheSet (c : Cache) (k : String) (v : CacheItem) : Cache :=
  match c with
  | [] => [(k, v)]
  | (k', v') :: rest => if k' = k then (k, v) :: rest else (k', v') :: cacheSet rest k v

/-- In-place mutation `cache[k].response_start_time = t` (lines 353-355);
at every call site of the source the entry for `k` exists. -/
def cacheUpdateAnchor (c : Cache) (k : String) (t : ℚ) : Cache :=
  match c with
  | [] => []
  | (k', v) :: rest =>
      if k' = k then (k', ⟨v.sequence, t⟩) :: cacheUpdateAnchor rest k t
      else (k', v) :: cacheUpdateAnchor rest k t

/-- A `Part` of the song structure: name, duration in bars
(`part.duration(bars=True)`) and the chord progression as MIDI pitches
(`part.get_midi_chords()`). -/
structure SongPart where
  name : String
  bars : ℕ
  midi_chords : List (List ℤ)
deriving Repr, DecidableEq

/-- `part.duration(bars=True)`. -/
def SongPart.duration (p : SongPart) : ℕ := p.bars

/-- `part.get_midi_chords()`. -/
def SongPart.get_midi_chords (p : SongPart) : List (List ℤ) := p.midi_chords

/-- `structure.duration(bars=True)` (line 252): total bars of the song. -/
def structureDuration (parts : List SongPart) : ℕ := (parts.map SongPart.duration).sum

/-- The environment of one `run` invocation: the song structure, the external
generators, the temperature control reading, and the captor's start time
(`self._captor.start_time`, line 292, constant for the run). -/
structure Env where
  STRUCTURE : List SongPart
  gens : Generators
  temperature : ℚ
  capture_start_time : ℚ

/-- The mutable state of the `run` loop between ticks: part/bar bookkeeping
(lines 249-253), the local `response_start_time` / `last_tick_time` variables,
the three per-track caches, the panic flag, and the live sequence last pushed
to each of the four playback handles.  `finished` records that the loop has
exited (`break`). -/
structure RunState where
  part_in_song : ℕ
  bars_played : ℕ
  bars_played_for_part : ℕ
  part_duration : ℕ
  last_tick_time : ℚ
  response_start_time : ℚ
  melody_cache : Cache
  bass_cache : Cache
  drum_cache : Cache
  panic : Bool
  player_melody : NoteSequence
  player_bass : NoteSequence
  player_chords : NoteSequence
  player_drums : NoteSequence
  finished : Bool

/-- One clock tick as delivered by `self._captor.iterate` (line 256):
the captured sequence (whose `total_time` is the tick boundary), the
wall-clock reading `time()` taken at the latency check (lines 346-347),
and whether the panic / stop signals arrived before this tick. -/
structure Tick where
  captured : NoteSequence
  now : ℚ
  panicArrived : Bool
  stopArrived : Bool

/-- The four `update_sequence(seq, start_time=response_start_time)` calls of a
dispatch (lines 359-362): each track's sequence and scheduled start time. -/
structure Dispatch where
  melody : NoteSequence × ℚ
  bass : NoteSequence × ℚ
  chords : NoteSequence × ℚ
  drums : NoteSequence × ℚ
deriving Repr, DecidableEq

/-- Observable events of one tick: whether the panic flush fired, the
generator invocations (generator index, part name), and the dispatch, if this
tick reached the playback-update step. -/
structure TickLog where
  flushed : Bool
  gen_calls : List (ℕ × String)
  dispatch : Option Dispatch
deriving Repr, DecidableEq

/-- Result of consulting one track's cache (one of the three if/else blocks
at lines 303-331): the sequence to play, the possibly overwritten
`response_start_time`, the updated cache, and the generator calls made. -/
structure ConsultResult where
  sequence : NoteSequence
  response_start_time : ℚ
  cache : Cache
  calls : List (ℕ × String)

/-- One if/else block of lines 303-331: on a truthy cache entry reuse the
cached sequence and overwrite `response_start_time` with the cached anchor;
otherwise call `_generate` over `[rst, rst + response_duration]` and store the
result with anchor `capture_start_time`. -/
def consultTrack (gens : Generators) (temperature : ℚ) (gen_index : ℕ) (cache : Cache)
    (name : String) (captured : NoteSequence) (capture_start_time : ℚ)
    (response_start_time response_duration : ℚ) : ConsultResult :=
  match cacheGet cache name with
  | some item => ⟨item.sequence, item.response_start_time, cache, []⟩
  | none =>
      let seq := (_generate gens temperature gen_index captured capture_start_time
        response_start_time (response_start_time + response_duration)).1
      ⟨seq, response_start_time, cacheSet cache name ⟨seq, capture_start_time⟩,
       [(gen_index, name)]⟩

/-- Result of the three cache consultations in source order. -/
structure ConsultAllResult where
  melody : NoteSequence
  bass : NoteSequence
  drums : NoteSequence
  response_start_time : ℚ
  melody_cache : Cache
  bass_cache : Cache
  drum_cache : Cache
  gen_calls : List (ℕ × String)

/-- Lines 303-331: consult the melody cache, then the bass cache, then the
drum cache, threading `response_start_time` through (so each hit's anchor
overwrites the previous value). -/
def consultAll (gens : Generators) (temperature : ℚ) (mc bc dc : Cache) (name : String)
    (captured : NoteSequence) (capture_start_time : ℚ)
    (response_start_time response_duration : ℚ) : ConsultAllResult :=
  let m := consultTrack gens temperature 0 mc name captured capture_start_time
    response_start_time response_duration
  let b := consultTrack gens temperature 1 bc name captured capture_start_time
    m.response_start_time response_duration
  let d := consultTrack gens temperature 2 dc name captured capture_start_time
    b.response_start_time response_duration
  ⟨m.sequence, b.sequence, d.sequence, d.response_start_time,
   m.cache, b.cache, d.cache, m.calls ++ b.calls ++ d.calls⟩

/-- Lines 336-342: build the chord-track note list from the part's chords
(`generate_midi_chord(chord, i / 2, 0.5)` per chord, then re-time each note by
`note.start + response_start_time` / `note.start + note.end +
response_start_time`). -/
def build_chord_notes (chords : List (List ℤ)) (response_start_time : ℚ) : List Note :=
  let notes := (chords.enum.map fun ic =>
    generate_midi_chord ic.2 ((ic.1 : ℚ) / 2) (1 / 2) 80).flatten
  notes.map fun note =>
    ⟨note.pitch, note.velocity, note.start + response_start_time,
     note.start + note.end_ + response_start_time⟩

/-- Modelled from the spec: `add_track_to_sequence` is Magenta test scaffolding
(imported at line 27, not part of this repository); per spec §4.5 step 11 it
assembles the given notes into the chord-track sequence, so the model appends
them to the sequence's note list and extends the total time to cover them. -/
def add_track_to_sequence (sequence : NoteSequence) (instrument : ℕ) (notes : List Note) :
    NoteSequence :=
  { notes := sequence.notes ++ notes.map fun n => ⟨n.pitch, n.velocity, n.start, n.end_⟩
    total_time := max sequence.total_time ((notes.map Note.end_).foldr max 0) }

/-- Lines 336-343: the chord sequence dispatched at a part boundary, before
any latency push. -/
def build_chord_sequence (part : SongPart) (response_start_time : ℚ) : NoteSequence :=
  add_track_to_sequence NoteSequence.empty 0
    (build_chord_notes part.get_midi_chords response_start_time)

/-- Result of the latency-compensation step. -/
structure PushResult where
  response_start_time : ℚ
  melody : NoteSequence
  bass : NoteSequence
  chords : NoteSequence
  drums : NoteSequence
  melody_cache : Cache
  bass_cache : Cache
  drum_cache : Cache

/-- Lines 345-356: if the wall clock has advanced at least a quarter tick past
`response_start_time`, push the response by `elapsed // tick_duration + 1`
ticks: shift the start time and all four sequences, and write the new start
time back as the anchor of the three cache entries for this part.  (The source
reads `time()` twice in immediate succession; the model takes the single
reading `now`.) -/
def latency_push (now tick_duration response_start_time : ℚ)
    (melody bass chords drums : NoteSequence) (mc bc dc : Cache) (name : String) :
    PushResult :=
  if now - response_start_time ≥ tick_duration / 4 then
    let push_ticks : ℤ := ((now - response_start_time) / tick_duration).floor + 1
    let shift : ℚ := (push_ticks : ℚ) * tick_duration
    let rst := response_start_time + shift
    ⟨rst, adjust_sequence_times melody shift, adjust_sequence_times bass shift,
     adjust_sequence_times chords shift, adjust_sequence_times drums shift,
     cacheUpdateAnchor mc name rst, cacheUpdateAnchor bc name rst,
     cacheUpdateAnchor dc name rst⟩
  else
    ⟨response_start_time, melody, bass, chords, drums, mc, bc, dc⟩

/-- Result of the whole part-boundary block (lines 303-362). -/
structure BoundaryResult where
  response_start_time : ℚ
  melody_cache : Cache
  bass_cache : Cache
  drum_cache : Cache
  gen_calls : List (ℕ × String)
  dispatch : Dispatch

/-- Lines 303-362: cache consultation / generation for the three cached
tracks, deterministic chord building, latency compensation, and the dispatch
of all four sequences at the final `response_start_time`. -/
def boundaryWork (gens : Generators) (temperature : ℚ) (part : SongPart)
    (captured : NoteSequence) (capture_start_time : ℚ)
    (response_start_time response_duration tick_duration now : ℚ)
    (mc bc dc : Cache) : BoundaryResult :=
  let r := consultAll gens temperature mc bc dc part.name captured capture_start_time
    response_start_time response_duration
  let chord_sequence := build_chord_sequence part r.response_start_time
  let p := latency_push now tick_duration r.response_start_time
    r.melody r.bass chord_sequence r.drums
    r.melody_cache r.bass_cache r.drum_cache part.name
  ⟨p.response_start_time, p.melody_cache, p.bass_cache, p.drum_cache, r.gen_calls,
   ⟨(p.melody, p.response_start_time), (p.bass, p.response_start_time),
    (p.chords, p.response_start_time), (p.drums, p.response_start_time)⟩⟩

/-- Lines 267-362 after the stop/panic checks: tick bookkeeping, the one-tick
-late part advance, the structure-exhausted break, and (on a part boundary)
the cache/generate/dispatch block.  `flushed` is carried into the log. -/
def tickBody (env : Env) (s : RunState) (t : Tick) (flushed : Bool) :
    RunState × TickLog :=
  let tick_time := t.captured.total_time
  let tick_duration := tick_time - s.last_tick_time
  let part_in_song :=
    if s.bars_played_for_part > s.part_duration then s.part_in_song + 1 else s.part_in_song
  let bars_played_for_part :=
    if s.bars_played_for_part > s.part_duration then 0 else s.bars_played_for_part
  match env.STRUCTURE[part_in_song]? with
  | none =>
      ({s with part_in_song := part_in_song, bars_played_for_part := bars_played_for_part,
               finished := true},
       ⟨flushed, [], none⟩)
  | some part =>
      let start_of_part := bars_played_for_part == 0
      let part_duration := part.duration
      let response_start_time := tick_time
      let response_duration := (part_duration : ℚ) * tick_duration
      let s' : RunState :=
        {s with part_in_song := part_in_song, part_duration := part_duration,
                last_tick_time := tick_time, bars_played := s.bars_played + 1,
                bars_played_for_part := bars_played_for_part + 1,
                response_start_time := response_start_time}
      if start_of_part then
        let br := boundaryWork env.gens env.temperature part t.captured
          env.capture_start_time response_start_time response_duration tick_duration t.now
          s.melody_cache s.bass_cache s.drum_cache
        ({s' with response_start_time := br.response_start_time,
                  melody_cache := br.melody_cache, bass_cache := br.bass_cache,
                  drum_cache := br.drum_cache,
                  player_melody := br.dispatch.melody.1, player_bass := br.dispatch.bass.1,
                  player_chords := br.dispatch.chords.1, player_drums := br.dispatch.drums.1},
         ⟨flushed, br.gen_calls, some br.dispatch⟩)
      else (s', ⟨flushed, [], none⟩)

/-- One iteration of the loop at lines 256-362: merge a freshly arrived panic
signal into the flag, honor the stop signal (line 257, `break`), perform the
panic flush (lines 259-265), then run the tick body. -/
def processTick (env : Env) (s0 : RunState) (t : Tick) : RunState × TickLog :=
  let s := {s0 with panic := s0.panic || t.panicArrived}
  if t.stopArrived then ({s with finished := true}, ⟨false, [], none⟩)
  else
    let flushed := s.panic
    let s1 :=
      if s.panic then
        {s with player_melody := NoteSequence.empty, player_bass := NoteSequence.empty,
                player_chords := NoteSequence.empty, player_drums := NoteSequence.empty,
                panic := false}
      else s
    tickBody env s1 t flushed

/-- The loop of line 256 over a finite list of delivered ticks; once the loop
has broken out (`finished`), remaining ticks are not processed. -/
def runTicks (env : Env) (s : RunState) : List Tick → RunState × List TickLog
  | [] => (s, [])
  | t :: rest =>
      if s.finished then (s, [])
      else
        let step := processTick env s t
        let r := runTicks env step.1 rest
        (r.1, step.2 :: r.2)

/-- Lines 232-253, the initialisation before the tick loop: zeroed counters,
empty response state, fresh per-part caches (all entries `None`, modelled as
the empty dictionary), and the initial `part_duration` read from the part at
index 0 — an access that raises `IndexError` (modelled as `none`) when the
structure is empty. -/
def initState (parts : List SongPart) (start_time : ℚ) : Option RunState :=
  match parts[0]? with
  | none => none
  | some part0 =>
      some { part_in_song := 0, bars_played := 0, bars_played_for_part := 0,
             part_duration := part0.duration, last_tick_time := start_time,
             response_start_time := 0, melody_cache := [], bass_cache := [],
             drum_cache := [], panic := false,
             player_melody := NoteSequence.empty, player_bass := NoteSequence.empty,
             player_chords := NoteSequence.empty, player_drums := NoteSequence.empty,
             finished := false }

/-! ### Dictionary lemmas -/

/-- Lookup after a store. -/
theorem cacheGet_cacheSet (c : Cache) (k k' : String) (v : CacheItem) :
    cacheGet (cacheSet c k v) k' = if k = k' then some v else cacheGet c k' := by
  induction c with
  | nil => simp [cacheSet, cacheGet]
  | cons hd tl ih =>
      obtain ⟨a, b⟩ := hd
      by_cases hak : a = k
      · subst hak
        by_cases hk' : a = k' <;> simp [cacheSet, cacheGet, hk']
      · by_cases hk' : a = k'
        · subst hk'
          have hkk : ¬(k = a) := fun h => hak h.symm
          simp [cacheSet, cacheGet, hak, hkk]
        · simp [cacheSet, cacheGet, hak, hk', ih]

/-- Lookup after an anchor update. -/
theorem cacheGet_cacheUpdateAnchor (c : Cache) (k k' : String) (t : ℚ) :
    cacheGet (cacheUpdateAnchor c k t) k' =
      if k = k' then (cacheGet c k').map (fun i => ⟨i.sequence, t⟩) else cacheGet c k' := by
  induction c with
  | nil => simp [cacheUpdateAnchor, cacheGet]
  | cons hd tl ih =>
      obtain ⟨a, b⟩ := hd
      by_cases hak : a = k
      · subst hak
        by_cases hk' : a = k'
        · subst hk'; simp [cacheUpdateAnchor, cacheGet]
        · simp [cacheUpdateAnchor, cacheGet, hk', ih]
      · by_cases hk' : a = k'
        · subst hk'
          have hkk : ¬(k = a) := fun h => hak h.symm
          simp [cacheUpdateAnchor, cacheGet, hak, hkk]
        · simp [cacheUpdateAnchor, cacheGet, hak, hk', ih]


/-! ### C9: the chord track -/

/-- The note lists produced by the chord-building loop, flattened and
re-timed, expand to block chords of duration one half, spaced one half apart,
shifted by the response start time. -/
theorem build_chord_notes_eq (L : List (ℕ × List ℤ)) (t : ℚ) :
    ((L.map fun ic => generate_midi_chord ic.2 ((ic.1 : ℚ) / 2) (1 / 2) 80).flatten.map
        fun note => Note.mk note.pitch note.velocity (note.start + t)
          (note.start + note.end_ + t)).map
      (fun n => SeqNote.mk n.pitch n.velocity n.start n.end_) =
    (L.map fun ic => ic.2.map fun p =>
      SeqNote.mk p 80 ((ic.1 : ℚ) / 2 + t) ((ic.1 : ℚ) / 2 + 1 / 2 + t)).flatten := by
  induction L with
  | nil => rfl
  | cons hd tl ih =>
      simp only [List.map_cons, List.flatten_cons, List.map_append]
      rw [← ih]
      congr 1
      simp [generate_midi_chord, List.map_map, Function.comp_def]

/-- C9: for a part with chord progression `c_0 .. c_{n-1}` and response start
time `t`, the chord-track sequence holds, for each index `i` and each pitch of
chord `c_i`, one note of velocity 80 starting at `i * 0.5 + t` and ending at
`i * 0.5 + 0.5 + t`. -/
theorem chord_track_block_chords (part : SongPart) (t : ℚ) :
    (build_chord_sequence part t).notes =
      (part.get_midi_chords.enum.map fun ic => ic.2.map fun p =>
        SeqNote.mk p 80 ((ic.1 : ℚ) / 2 + t) ((ic.1 : ℚ) / 2 + 1 / 2 + t)).flatten := by
  have h := build_chord_notes_eq part.get_midi_chords.enum t
  simpa [build_chord_sequence, add_track_to_sequence, build_chord_notes,
    NoteSequence.empty] using h

/-! ### C10: run requires a non-empty structure -/

/-- C10: the pre-loop initialisation reads the duration of the part at index
0, so it fails (IndexError, modelled as `none`) exactly when the structure is
empty, and succeeds for every non-empty structure. -/
theorem run_requires_nonempty_structure :
    (∀ start_time : ℚ, initState [] start_time = none) ∧
    ∀ (parts : List SongPart) (start_time : ℚ), parts ≠ [] →
      (initState parts start_time).isSome := by
  constructor
  · intro _; rfl
  · intro parts start_time h
    match parts with
    | [] => exact absurd rfl h
    | p :: ps => simp [initState]

/-- Witness for C10 at the empty structure and a one-part structure. -/
theorem run_requires_nonempty_structure_witness :
    initState [] 0 = none ∧ (initState [⟨"A", 4, [[60, 64, 67]]⟩] 0).isSome :=
  ⟨run_requires_nonempty_structure.1 0,
   run_requires_nonempty_structure.2 [⟨"A", 4, [[60, 64, 67]]⟩] 0 (by simp)⟩

/-! ### C6: cache-anchor last-write-wins -/

/-- C6: the caches are consulted melody, then bass, then drums; each hit
overwrites `response_start_time` with its anchor, so the value entering the
latency check is the anchor of the last track that hit (drums over bass over
melody), and the locally computed start time only when none hit. -/
theorem cache_anchor_last_write_wins (gens : Generators) (temperature : ℚ)
    (mc bc dc : Cache) (name : String) (captured : NoteSequence)
    (capture_start_time response_start_time response_duration : ℚ) :
    (consultAll gens temperature mc bc dc name captured capture_start_time
        response_start_time response_duration).response_start_time =
      match cacheGet dc name with
      | some i => i.response_start_time
      | none =>
          match cacheGet bc name with
          | some i => i.response_start_time
          | none =>
              match cacheGet mc name with
              | some i => i.response_start_time
              | none => response_start_time := by
  rcases hm : cacheGet mc name with _ | mi <;> rcases hb : cacheGet bc name with _ | bi <;>
    rcases hd : cacheGet dc name with _ | di <;>
      simp [consultAll, consultTrack, hm, hb, hd]

/-! ### C3: latency compensation -/

/-- C3: at a part-boundary tick with positive tick duration, if the wall
clock is at least a quarter tick past `response_start_time` then the push adds
`(floor(elapsed / tick_duration) + 1) * tick_duration` to the start time and
to all four sequences and writes the new start time into the three cache
anchors for the part; below the threshold nothing changes. -/
theorem latency_push_spec (now tick_duration rst : ℚ)
    (melody bass chords drums : NoteSequence) (mc bc dc : Cache) (name : String)
    (htd : 0 < tick_duration) :
    (tick_duration / 4 ≤ now - rst →
      latency_push now tick_duration rst melody bass chords drums mc bc dc name =
        ⟨rst + ((((now - rst) / tick_duration).floor + 1 : ℤ) : ℚ) * tick_duration,
         adjust_sequence_times melody
           (((((now - rst) / tick_duration).floor + 1 : ℤ) : ℚ) * tick_duration),
         adjust_sequence_times bass
           (((((now - rst) / tick_duration).floor + 1 : ℤ) : ℚ) * tick_duration),
         adjust_sequence_times chords
           (((((now - rst) / tick_duration).floor + 1 : ℤ) : ℚ) * tick_duration),
         adjust_sequence_times drums
           (((((now - rst) / tick_duration).floor + 1 : ℤ) : ℚ) * tick_duration),
         cacheUpdateAnchor mc name
           (rst + ((((now - rst) / tick_duration).floor + 1 : ℤ) : ℚ) * tick_duration),
         cacheUpdateAnchor bc name
           (rst + ((((now - rst) / tick_duration).floor + 1 : ℤ) : ℚ) * tick_duration),
         cacheUpdateAnchor dc name
           (rst + ((((now - rst) / tick_duration).floor + 1 : ℤ) : ℚ) * tick_duration)⟩) ∧
    (now - rst < tick_duration / 4 →
      latency_push now tick_duration rst melody bass chords drums mc bc dc name =
        ⟨rst, melody, bass, chords, drums, mc, bc, dc⟩) := by
  constructor
  · intro h
    simp [latency_push, ge_iff_le, h]
  · intro h
    rw [latency_push, if_neg (by exact fun hc => absurd h (not_lt.mpr hc))]

/-- Witness for C3: with tick duration 1, response start 0 and wall clock at
one half, the push is by one tick; with the wall clock back at 0 nothing
changes. -/
theorem latency_push_spec_witness :
    latency_push (1 / 2) 1 0 NoteSequence.empty NoteSequence.empty NoteSequence.empty
        NoteSequence.empty [] [] [] "A" =
      ⟨0 + ((((1 / 2 - 0 : ℚ) / 1).floor + 1 : ℤ) : ℚ) * 1,
       adjust_sequence_times NoteSequence.empty ((((((1 : ℚ) / 2 - 0) / 1).floor + 1 : ℤ) : ℚ) * 1),
       adjust_sequence_times NoteSequence.empty ((((((1 : ℚ) / 2 - 0) / 1).floor + 1 : ℤ) : ℚ) * 1),
       adjust_sequence_times NoteSequence.empty ((((((1 : ℚ) / 2 - 0) / 1).floor + 1 : ℤ) : ℚ) * 1),
       adjust_sequence_times NoteSequence.empty ((((((1 : ℚ) / 2 - 0) / 1).floor + 1 : ℤ) : ℚ) * 1),
       cacheUpdateAnchor [] "A" (0 + ((((((1 : ℚ) / 2 - 0) / 1).floor + 1 : ℤ) : ℚ) * 1)),
       cacheUpdateAnchor [] "A" (0 + ((((((1 : ℚ) / 2 - 0) / 1).floor + 1 : ℤ) : ℚ) * 1)),
       cacheUpdateAnchor [] "A" (0 + ((((((1 : ℚ) / 2 - 0) / 1).floor + 1 : ℤ) : ℚ) * 1))⟩ ∧
    latency_push 0 1 0 NoteSequence.empty NoteSequence.empty NoteSequence.empty
        NoteSequence.empty [] [] [] "A" =
      ⟨0, NoteSequence.empty, NoteSequence.empty, NoteSequence.empty, NoteSequence.empty,
       [], [], []⟩ :=
  ⟨(latency_push_spec (1 / 2) 1 0 NoteSequence.empty NoteSequence.empty NoteSequence.empty
      NoteSequence.empty [] [] [] "A" (by norm_num)).1 (by norm_num),
   (latency_push_spec 0 1 0 NoteSequence.empty NoteSequence.empty NoteSequence.empty
      NoteSequence.empty [] [] [] "A" (by norm_num)).2 (by norm_num)⟩

/-! ### C2: phase-locked dispatch -/

/-- All four pairs of a boundary dispatch carry the post-push start time. -/
theorem boundaryWork_start_times (gens : Generators) (temperature : ℚ) (part : SongPart)
    (captured : NoteSequence) (capture_start_time : ℚ)
    (response_start_time response_duration tick_duration now : ℚ) (mc bc dc : Cache) :
    ((boundaryWork gens temperature part captured capture_start_time response_start_time
        response_duration tick_duration now mc bc dc).dispatch.melody.2 =
      (boundaryWork gens temperature part captured capture_start_time response_start_time
        response_duration tick_duration now mc bc dc).response_start_time) ∧
    ((boundaryWork gens temperature part captured capture_start_time response_start_time
        response_duration tick_duration now mc bc dc).dispatch.bass.2 =
      (boundaryWork gens temperature part captured capture_start_time response_start_time
        response_duration tick_duration now mc bc dc).response_start_time) ∧
    ((boundaryWork gens temperature part captured capture_start_time response_start_time
        response_duration tick_duration now mc bc dc).dispatch.chords.2 =
      (boundaryWork gens temperature part captured capture_start_time response_start_time
        response_duration tick_duration now mc bc dc).response_start_time) ∧
    ((boundaryWork gens temperature part captured capture_start_time response_start_time
        response_duration tick_duration now mc bc dc).dispatch.drums.2 =
      (boundaryWork gens temperature part captured capture_start_time response_start_time
        response_duration tick_duration now mc bc dc).response_start_time) :=
  ⟨rfl, rfl, rfl, rfl⟩

/-- Phase lock at the tick-body level: a dispatch's four start times all
equal the new state's `response_start_time`. -/
theorem tickBody_dispatch_phase (env : Env) (s : RunState) (t : Tick) (f : Bool)
    (d : Dispatch) (h : (tickBody env s t f).2.dispatch = some d) :
    d.melody.2 = (tickBody env s t f).1.response_start_time ∧
    d.bass.2 = (tickBody env s t f).1.response_start_time ∧
    d.chords.2 = (tickBody env s t f).1.response_start_time ∧
    d.drums.2 = (tickBody env s t f).1.response_start_time := by
  revert h
  simp only [tickBody]
  repeat' split
  all_goals intro h
  all_goals first
    | (simp only [Option.some.injEq] at h
       subst h
       exact ⟨rfl, rfl, rfl, rfl⟩)
    | simp at h

/-- C2: whenever a tick dispatches, the four tracks' scheduled start times
are identical and equal to the final `response_start_time` of the tick (after
any latency push). -/
theorem dispatch_phase_locked (env : Env) (s : RunState) (t : Tick) (d : Dispatch)
    (h : (processTick env s t).2.dispatch = some d) :
    d.melody.2 = (processTick env s t).1.response_start_time ∧
    d.bass.2 = (processTick env s t).1.response_start_time ∧
    d.chords.2 = (processTick env s t).1.response_start_time ∧
    d.drums.2 = (processTick env s t).1.response_start_time := by
  simp only [processTick] at h ⊢
  by_cases hstop : t.stopArrived = true
  · rw [if_pos hstop] at h
    exact absurd h (by simp)
  · rw [if_neg hstop] at h ⊢
    exact tickBody_dispatch_phase env _ t _ d h

/-! ### Demo fixtures (concrete instances used by witnesses) -/

/-- Part "A" of spec §8 scenario 6: four bars, two chords. -/
def partA : SongPart := ⟨"A", 4, [[60, 64, 67], [55, 59, 62]]⟩

/-- Part "B" of spec §8 scenario 6: two bars, one chord. -/
def partB : SongPart := ⟨"B", 2, [[57, 60, 64]]⟩

/-- A trivial concrete generator family: always returns the empty sequence. -/
def demoGens : Generators := fun _ _ _ => NoteSequence.empty

/-- Concrete run environment: structure `[A, B]`, capture started at 0. -/
def demoEnv : Env := ⟨[partA, partB], demoGens, 1, 0⟩

/-- Fallback state for `Option.getD` (never reached on these fixtures). -/
def fallbackState : RunState :=
  ⟨0, 0, 0, 0, 0, 0, [], [], [], false, NoteSequence.empty, NoteSequence.empty,
   NoteSequence.empty, NoteSequence.empty, true⟩

/-- The initial state of a run over `[A, B]` started at time 0. -/
def demoInit : RunState := (initState [partA, partB] 0).getD fallbackState

/-- The k-th clock tick, one time unit apart, with an on-time wall clock and
no signals. -/
def demoTick (k : ℕ) : Tick := ⟨⟨[], (k : ℚ)⟩, (k : ℚ), false, false⟩

/-- Witness for C2 at a concrete boundary tick. -/
theorem dispatch_phase_locked_witness :
    (((processTick demoEnv demoInit (demoTick 1)).2.dispatch.getD
        ⟨(NoteSequence.empty, 0), (NoteSequence.empty, 0), (NoteSequence.empty, 0),
         (NoteSequence.empty, 0)⟩).melody.2 =
      (processTick demoEnv demoInit (demoTick 1)).1.response_start_time) ∧
    (((processTick demoEnv demoInit (demoTick 1)).2.dispatch.getD
        ⟨(NoteSequence.empty, 0), (NoteSequence.empty, 0), (NoteSequence.empty, 0),
         (NoteSequence.empty, 0)⟩).bass.2 =
      (processTick demoEnv demoInit (demoTick 1)).1.response_start_time) ∧
    (((processTick demoEnv demoInit (demoTick 1)).2.dispatch.getD
        ⟨(NoteSequence.empty, 0), (NoteSequence.empty, 0), (NoteSequence.empty, 0),
         (NoteSequence.empty, 0)⟩).chords.2 =
      (processTick demoEnv demoInit (demoTick 1)).1.response_start_time) ∧
    (((processTick demoEnv demoInit (demoTick 1)).2.dispatch.getD
        ⟨(NoteSequence.empty, 0), (NoteSequence.empty, 0), (NoteSequence.empty, 0),
         (NoteSequence.empty, 0)⟩).drums.2 =
      (processTick demoEnv demoInit (demoTick 1)).1.response_start_time) :=
  dispatch_phase_locked demoEnv demoInit (demoTick 1) _ (by rfl)

/-! ### C5: the panic flush -/

/-- The tick body carries the flush marker through unchanged. -/
theorem tickBody_flushed (env : Env) (s : RunState) (t : Tick) (f : Bool) :
    (tickBody env s t f).2.flushed = f := by
  simp only [tickBody]
  repeat' split
  all_goals rfl

/-- The tick body never touches the panic flag. -/
theorem tickBody_panic (env : Env) (s : RunState) (t : Tick) (f : Bool) :
    (tickBody env s t f).1.panic = s.panic := by
  simp only [tickBody]
  repeat' split
  all_goals rfl

/-- When the tick body does not dispatch, the live playback sequences are
left as they were. -/
theorem tickBody_players_of_no_dispatch (env : Env) (s : RunState) (t : Tick) (f : Bool)
    (h : (tickBody env s t f).2.dispatch = none) :
    (tickBody env s t f).1.player_melody = s.player_melody ∧
    (tickBody env s t f).1.player_bass = s.player_bass ∧
    (tickBody env s t f).1.player_chords = s.player_chords ∧
    (tickBody env s t f).1.player_drums = s.player_drums := by
  revert h
  simp only [tickBody]
  repeat' split
  all_goals intro h
  all_goals first
    | exact ⟨rfl, rfl, rfl, rfl⟩
    | simp at h

/-- A tick on which the stop signal has arrived only marks the loop finished
(line 257 `break`): no flush, no generation, no dispatch. -/
theorem processTick_stop (env : Env) (s : RunState) (t : Tick)
    (h : t.stopArrived = true) :
    processTick env s t =
      ({s with panic := s.panic || t.panicArrived, finished := true}, ⟨false, [], none⟩) := by
  unfold processTick
  simp [h]

/-- On a non-stop tick the flush fires exactly when the panic flag (as merged
with a freshly arrived signal) is set, and the flag is always clear
afterwards. -/
theorem processTick_flushed (env : Env) (s : RunState) (t : Tick)
    (h : t.stopArrived = false) :
    (processTick env s t).2.flushed = (s.panic || t.panicArrived) ∧
    (processTick env s t).1.panic = false := by
  unfold processTick
  cases hp : (s.panic || t.panicArrived) with
  | false => simp [h, hp, tickBody_flushed, tickBody_panic]
  | true => simp [h, hp, tickBody_flushed, tickBody_panic]

/-- Once the loop has broken out, later ticks are not processed. -/
theorem runTicks_finished (env : Env) (s : RunState) (ticks : List Tick)
    (h : s.finished = true) : runTicks env s ticks = (s, []) := by
  cases ticks <;> simp [runTicks, h]

/-- Number of ticks of a run on which the panic flush fired. -/
def countFlushes (logs : List TickLog) : ℕ := (logs.filter TickLog.flushed).length

/-- Unfolding `countFlushes` over one tick. -/
theorem countFlushes_cons (l : TickLog) (ls : List TickLog) :
    countFlushes (l :: ls) = (if l.flushed then 1 else 0) + countFlushes ls := by
  simp only [countFlushes, List.filter_cons]
  split <;> simp <;> omega

/-- With the panic flag clear and no further panic signals, no tick ever
flushes. -/
theorem runTicks_no_flush (env : Env) :
    ∀ (ticks : List Tick) (s : RunState), s.panic = false →
      (∀ u ∈ ticks, u.panicArrived = false) →
      countFlushes (runTicks env s ticks).2 = 0 := by
  intro ticks
  induction ticks with
  | nil => intro s _ _; simp [runTicks, countFlushes]
  | cons u rest ih =>
      intro s hp hall
      cases hfin : s.finished with
      | true => simp [runTicks, hfin, countFlushes]
      | false =>
          have harr : u.panicArrived = false := hall u (by simp)
          simp only [runTicks, hfin, Bool.false_eq_true, if_false]
          rw [countFlushes_cons]
          cases hstop : u.stopArrived with
          | true =>
              rw [processTick_stop env s u hstop]
              simp only [hp, harr, Bool.or_false]
              rw [runTicks_finished env _ rest rfl]
              simp [countFlushes]
          | false =>
              have hfl := processTick_flushed env s u hstop
              rw [hfl.1]
              simp only [hp, harr, Bool.or_false, if_false]
              have := ih (processTick env s u).1 hfl.2 (fun v hv => hall v (by simp [hv]))
              simpa using this

/-- On a non-stop tick whose (merged) panic flag is set, the tick runs the
flush body: live players emptied, flag cleared, and the tick body sees the
flushed state. -/
theorem processTick_panic_eq (env : Env) (s : RunState) (t : Tick)
    (hstop : t.stopArrived = false) (hflag : (s.panic || t.panicArrived) = true) :
    processTick env s t =
      tickBody env
        {s with panic := false, player_melody := NoteSequence.empty,
                player_bass := NoteSequence.empty, player_chords := NoteSequence.empty,
                player_drums := NoteSequence.empty} t true := by
  unfold processTick
  simp [hstop, hflag]

/-- C5: if the panic flag is set when a (non-stop) tick is processed, that
tick flushes: the flag is cleared, the flush fires on this tick, and — with no
further panic signal — exactly once over the whole remaining run; when the
tick does not dispatch afterwards, all four live playback sequences end the
tick empty.  The statement quantifies over arbitrary states and ticks, so the
flush is independent of part boundaries. -/
theorem panic_flush_exactly_once (env : Env) (s : RunState) (t : Tick) (ticks : List Tick)
    (hstop : t.stopArrived = false) (hflag : (s.panic || t.panicArrived) = true)
    (hfin : s.finished = false) (hrest : ∀ u ∈ ticks, u.panicArrived = false) :
    (processTick env s t).2.flushed = true ∧
    (processTick env s t).1.panic = false ∧
    countFlushes (runTicks env s (t :: ticks)).2 = 1 ∧
    ((processTick env s t).2.dispatch = none →
      (processTick env s t).1.player_melody = NoteSequence.empty ∧
      (processTick env s t).1.player_bass = NoteSequence.empty ∧
      (processTick env s t).1.player_chords = NoteSequence.empty ∧
      (processTick env s t).1.player_drums = NoteSequence.empty) := by
  have h1 := processTick_flushed env s t hstop
  refine ⟨by rw [h1.1, hflag], h1.2, ?_, ?_⟩
  · simp only [runTicks, hfin, Bool.false_eq_true, if_false]
    rw [countFlushes_cons, h1.1, hflag, if_pos rfl,
      runTicks_no_flush env ticks (processTick env s t).1 h1.2 hrest]
  · intro hd
    rw [processTick_panic_eq env s t hstop hflag] at hd ⊢
    have hp := tickBody_players_of_no_dispatch env _ t true hd
    simpa using hp

/-- A state mid-part (one bar already played) with the panic flag set. -/
def demoPanicState : RunState := {demoInit with panic := true, bars_played_for_part := 1}

/-- Witness for C5 on a concrete non-boundary tick with the flag set. -/
theorem panic_flush_exactly_once_witness :
    (processTick demoEnv demoPanicState (demoTick 1)).2.flushed = true ∧
    (processTick demoEnv demoPanicState (demoTick 1)).1.panic = false ∧
    countFlushes (runTicks demoEnv demoPanicState [demoTick 1, demoTick 2]).2 = 1 ∧
    ((processTick demoEnv demoPanicState (demoTick 1)).1.player_melody = NoteSequence.empty ∧
     (processTick demoEnv demoPanicState (demoTick 1)).1.player_bass = NoteSequence.empty ∧
     (processTick demoEnv demoPanicState (demoTick 1)).1.player_chords = NoteSequence.empty ∧
     (processTick demoEnv demoPanicState (demoTick 1)).1.player_drums = NoteSequence.empty) :=
  have h := panic_flush_exactly_once demoEnv demoPanicState (demoTick 1) [demoTick 2]
    rfl rfl rfl (by simp [demoTick])
  ⟨h.1, h.2.1, h.2.2.1, h.2.2.2 (by rfl)⟩

/-! ### C4: cache determinism -/

/-- A truthy cache entry short-circuits the consult: the cached sequence and
anchor are used unchanged, the cache is untouched, and the generator is not
invoked. -/
theorem consultTrack_hit (gens : Generators) (temperature : ℚ) (gen_index : ℕ)
    (cache : Cache) (name : String) (captured : NoteSequence)
    (capture_start_time response_start_time response_duration : ℚ) {item : CacheItem}
    (h : cacheGet cache name = some item) :
    consultTrack gens temperature gen_index cache name captured capture_start_time
        response_start_time response_duration =
      ⟨item.sequence, item.response_start_time, cache, []⟩ := by
  unfold consultTrack
  rw [h]

/-- An absent (`None`) entry triggers one generator call and a store keyed by
the part name with anchor `capture_start_time`. -/
theorem consultTrack_miss (gens : Generators) (temperature : ℚ) (gen_index : ℕ)
    (cache : Cache) (name : String) (captured : NoteSequence)
    (capture_start_time response_start_time response_duration : ℚ)
    (h : cacheGet cache name = none) :
    consultTrack gens temperature gen_index cache name captured capture_start_time
        response_start_time response_duration =
      ⟨(_generate gens temperature gen_index captured capture_start_time
          response_start_time (response_start_time + response_duration)).1,
       response_start_time,
       cacheSet cache name
         ⟨(_generate gens temperature gen_index captured capture_start_time
             response_start_time (response_start_time + response_duration)).1,
          capture_start_time⟩,
       [(gen_index, name)]⟩ := by
  unfold consultTrack
  rw [h]

/-- The calls made by one consult, as an equation on the truthiness of the
entry. -/
theorem consultTrack_calls (gens : Generators) (temperature : ℚ) (gen_index : ℕ)
    (cache : Cache) (name : String) (captured : NoteSequence)
    (capture_start_time response_start_time response_duration : ℚ) :
    (consultTrack gens temperature gen_index cache name captured capture_start_time
        response_start_time response_duration).calls =
      if (cacheGet cache name).isSome then [] else [(gen_index, name)] := by
  rcases h : cacheGet cache name with _ | it
  · rw [consultTrack_miss _ _ _ _ _ _ _ _ _ h]
    rfl
  · rw [consultTrack_hit _ _ _ _ _ _ _ _ _ h]
    rfl

/-- Consulting never erases an existing entry. -/
theorem consultTrack_cache_preserves (gens : Generators) (temperature : ℚ) (gen_index : ℕ)
    (cache : Cache) (name : String) (captured : NoteSequence)
    (capture_start_time response_start_time response_duration : ℚ) (k : String)
    {item : CacheItem} (h : cacheGet cache k = some item) :
    cacheGet (consultTrack gens temperature gen_index cache name captured capture_start_time
        response_start_time response_duration).cache k = some item := by
  rcases hn : cacheGet cache name with _ | it
  · rw [consultTrack_miss _ _ _ _ _ _ _ _ _ hn]
    rw [cacheGet_cacheSet]
    split
    · next heq =>
        rw [heq] at hn
        rw [hn] at h
        exact Option.noConfusion h
    · exact h
  · rw [consultTrack_hit _ _ _ _ _ _ _ _ _ hn]
    exact h

/-- After a consult, the entry for the consulted name exists. -/
theorem consultTrack_cache_some (gens : Generators) (temperature : ℚ) (gen_index : ℕ)
    (cache : Cache) (name : String) (captured : NoteSequence)
    (capture_start_time response_start_time response_duration : ℚ) :
    (cacheGet (consultTrack gens temperature gen_index cache name captured capture_start_time
        response_start_time response_duration).cache name).isSome = true := by
  rcases hn : cacheGet cache name with _ | it
  · rw [consultTrack_miss _ _ _ _ _ _ _ _ _ hn, cacheGet_cacheSet]
    simp
  · rw [consultTrack_hit _ _ _ _ _ _ _ _ _ hn, hn]
    rfl

/-- The latency push changes only anchors: an existing melody-cache entry
keeps its sequence. -/
theorem latency_push_melody_preserves (now tick_duration rst : ℚ)
    (melody bass chords drums : NoteSequence) (mc bc dc : Cache) (name k : String)
    {item : CacheItem} (h : cacheGet mc k = some item) :
    ∃ a, cacheGet (latency_push now tick_duration rst melody bass chords drums
        mc bc dc name).melody_cache k = some ⟨item.sequence, a⟩ := by
  unfold latency_push
  split
  · rw [cacheGet_cacheUpdateAnchor]
    split
    · rw [h]
      exact ⟨_, rfl⟩
    · rw [h]
      exact ⟨_, rfl⟩
  · rw [h]
    exact ⟨_, rfl⟩

/-- The latency push changes only anchors: an existing bass-cache entry keeps
its sequence. -/
theorem latency_push_bass_preserves (now tick_duration rst : ℚ)
    (melody bass chords drums : NoteSequence) (mc bc dc : Cache) (name k : String)
    {item : CacheItem} (h : cacheGet bc k = some item) :
    ∃ a, cacheGet (latency_push now tick_duration rst melody bass chords drums
        mc bc dc name).bass_cache k = some ⟨item.sequence, a⟩ := by
  unfold latency_push
  split
  · rw [cacheGet_cacheUpdateAnchor]
    split
    · rw [h]
      exact ⟨_, rfl⟩
    · rw [h]
      exact ⟨_, rfl⟩
  · rw [h]
    exact ⟨_, rfl⟩

/-- The latency push changes only anchors: an existing drum-cache entry keeps
its sequence. -/
theorem latency_push_drum_preserves (now tick_duration rst : ℚ)
    (melody bass chords drums : NoteSequence) (mc bc dc : Cache) (name k : String)
    {item : CacheItem} (h : cacheGet dc k = some item) :
    ∃ a, cacheGet (latency_push now tick_duration rst melody bass chords drums
        mc bc dc name).drum_cache k = some ⟨item.sequence, a⟩ := by
  unfold latency_push
  split
  · rw [cacheGet_cacheUpdateAnchor]
    split
    · rw [h]
      exact ⟨_, rfl⟩
    · rw [h]
      exact ⟨_, rfl⟩
  · rw [h]
    exact ⟨_, rfl⟩

/-- The latency push preserves existence of a melody-cache entry. -/
theorem latency_push_melody_isSome (now tick_duration rst : ℚ)
    (melody bass chords drums : NoteSequence) (mc bc dc : Cache) (name k : String)
    (h : (cacheGet mc k).isSome = true) :
    (cacheGet (latency_push now tick_duration rst melody bass chords drums
        mc bc dc name).melody_cache k).isSome = true := by
  obtain ⟨item, hi⟩ := Option.isSome_iff_exists.mp h
  obtain ⟨a, ha⟩ := latency_push_melody_preserves now tick_duration rst melody bass chords
    drums mc bc dc name k hi
  rw [ha]
  rfl

/-- The latency push preserves existence of a bass-cache entry. -/
theorem latency_push_bass_isSome (now tick_duration rst : ℚ)
    (melody bass chords drums : NoteSequence) (mc bc dc : Cache) (name k : String)
    (h : (cacheGet bc k).isSome = true) :
    (cacheGet (latency_push now tick_duration rst melody bass chords drums
        mc bc dc name).bass_cache k).isSome = true := by
  obtain ⟨item, hi⟩ := Option.isSome_iff_exists.mp h
  obtain ⟨a, ha⟩ := latency_push_bass_preserves now tick_duration rst melody bass chords
    drums mc bc dc name k hi
  rw [ha]
  rfl

/-- The latency push preserves existence of a drum-cache entry. -/
theorem latency_push_drum_isSome (now tick_duration rst : ℚ)
    (melody bass chords drums : NoteSequence) (mc bc dc : Cache) (name k : String)
    (h : (cacheGet dc k).isSome = true) :
    (cacheGet (latency_push now tick_duration rst melody bass chords drums
        mc bc dc name).drum_cache k).isSome = true := by
  obtain ⟨item, hi⟩ := Option.isSome_iff_exists.mp h
  obtain ⟨a, ha⟩ := latency_push_drum_preserves now tick_duration rst melody bass chords
    drums mc bc dc name k hi
  rw [ha]
  rfl

/-- Number of generator invocations for a given generator index and part name
in a call list. -/
def callCount (gen_index : ℕ) (name : String) (calls : List (ℕ × String)) : ℕ :=
  (calls.filter fun c => c.1 == gen_index && c.2 == name).length

/-- The generator calls of one boundary, track by track in source order. -/
theorem boundaryWork_calls_eq (gens : Generators) (temperature : ℚ) (part : SongPart)
    (captured : NoteSequence) (capture_start_time : ℚ)
    (response_start_time response_duration tick_duration now : ℚ) (mc bc dc : Cache) :
    (boundaryWork gens temperature part captured capture_start_time response_start_time
        response_duration tick_duration now mc bc dc).gen_calls =
      ((if (cacheGet mc part.name).isSome then [] else [(0, part.name)]) ++
       (if (cacheGet bc part.name).isSome then [] else [(1, part.name)])) ++
      (if (cacheGet dc part.name).isSome then [] else [(2, part.name)]) := by
  simp only [boundaryWork, consultAll, consultTrack_calls]

/-- The melody generator fires at a boundary exactly when the melody cache
has no entry for the part, and then once. -/
theorem boundaryWork_melody_count (gens : Generators) (temperature : ℚ) (part : SongPart)
    (captured : NoteSequence) (capture_start_time : ℚ)
    (response_start_time response_duration tick_duration now : ℚ) (mc bc dc : Cache)
    (n : String) :
    callCount 0 n (boundaryWork gens temperature part captured capture_start_time
        response_start_time response_duration tick_duration now mc bc dc).gen_calls =
      if n = part.name ∧ (cacheGet mc part.name).isSome = false then 1 else 0 := by
  rw [boundaryWork_calls_eq]
  rcases hm : (cacheGet mc part.name).isSome with _ | _ <;>
    rcases hb : (cacheGet bc part.name).isSome with _ | _ <;>
      rcases hd2 : (cacheGet dc part.name).isSome with _ | _ <;>
        by_cases hn : n = part.name <;>
          simp_all [callCount]
  all_goals exact fun hc => hn hc.symm

/-- The bass generator fires at a boundary exactly when the bass cache has no
entry for the part, and then once. -/
theorem boundaryWork_bass_count (gens : Generators) (temperature : ℚ) (part : SongPart)
    (captured : NoteSequence) (capture_start_time : ℚ)
    (response_start_time response_duration tick_duration now : ℚ) (mc bc dc : Cache)
    (n : String) :
    callCount 1 n (boundaryWork gens temperature part captured capture_start_time
        response_start_time response_duration tick_duration now mc bc dc).gen_calls =
      if n = part.name ∧ (cacheGet bc part.name).isSome = false then 1 else 0 := by
  rw [boundaryWork_calls_eq]
  rcases hm : (cacheGet mc part.name).isSome with _ | _ <;>
    rcases hb : (cacheGet bc part.name).isSome with _ | _ <;>
      rcases hd2 : (cacheGet dc part.name).isSome with _ | _ <;>
        by_cases hn : n = part.name <;>
          simp_all [callCount]
  all_goals exact fun hc => hn hc.symm

/-- The drum generator fires at a boundary exactly when the drum cache has no
entry for the part, and then once. -/
theorem boundaryWork_drum_count (gens : Generators) (temperature : ℚ) (part : SongPart)
    (captured : NoteSequence) (capture_start_time : ℚ)
    (response_start_time response_duration tick_duration now : ℚ) (mc bc dc : Cache)
    (n : String) :
    callCount 2 n (boundaryWork gens temperature part captured capture_start_time
        response_start_time response_duration tick_duration now mc bc dc).gen_calls =
      if n = part.name ∧ (cacheGet dc part.name).isSome = false then 1 else 0 := by
  rw [boundaryWork_calls_eq]
  rcases hm : (cacheGet mc part.name).isSome with _ | _ <;>
    rcases hb : (cacheGet bc part.name).isSome with _ | _ <;>
      rcases hd2 : (cacheGet dc part.name).isSome with _ | _ <;>
        by_cases hn : n = part.name <;>
          simp_all [callCount]
  all_goals exact fun hc => hn hc.symm

/-- A boundary never erases a melody-cache entry and never changes its
sequence; only the anchor can move. -/
theorem boundaryWork_melody_preserves (gens : Generators) (temperature : ℚ)
    (part : SongPart) (captured : NoteSequence) (capture_start_time : ℚ)
    (response_start_time response_duration tick_duration now : ℚ) (mc bc dc : Cache)
    (k : String) {item : CacheItem} (h : cacheGet mc k = some item) :
    ∃ a, cacheGet (boundaryWork gens temperature part captured capture_start_time
        response_start_time response_duration tick_duration now mc bc dc).melody_cache k =
      some ⟨item.sequence, a⟩ := by
  simp only [boundaryWork, consultAll]
  exact latency_push_melody_preserves _ _ _ _ _ _ _ _ _ _ _ _
    (consultTrack_cache_preserves _ _ _ _ _ _ _ _ _ _ h)

/-- A boundary never erases a bass-cache entry and never changes its
sequence; only the anchor can move. -/
theorem boundaryWork_bass_preserves (gens : Generators) (temperature : ℚ)
    (part : SongPart) (captured : NoteSequence) (capture_start_time : ℚ)
    (response_start_time response_duration tick_duration now : ℚ) (mc bc dc : Cache)
    (k : String) {item : CacheItem} (h : cacheGet bc k = some item) :
    ∃ a, cacheGet (boundaryWork gens temperature part captured capture_start_time
        response_start_time response_duration tick_duration now mc bc dc).bass_cache k =
      some ⟨item.sequence, a⟩ := by
  simp only [boundaryWork, consultAll]
  exact latency_push_bass_preserves _ _ _ _ _ _ _ _ _ _ _ _
    (consultTrack_cache_preserves _ _ _ _ _ _ _ _ _ _ h)

/-- A boundary never erases a drum-cache entry and never changes its
sequence; only the anchor can move. -/
theorem boundaryWork_drum_preserves (gens : Generators) (temperature : ℚ)
    (part : SongPart) (captured : NoteSequence) (capture_start_time : ℚ)
    (response_start_time response_duration tick_duration now : ℚ) (mc bc dc : Cache)
    (k : String) {item : CacheItem} (h : cacheGet dc k = some item) :
    ∃ a, cacheGet (boundaryWork gens temperature part captured capture_start_time
        response_start_time response_duration tick_duration now mc bc dc).drum_cache k =
      some ⟨item.sequence, a⟩ := by
  simp only [boundaryWork, consultAll]
  exact latency_push_drum_preserves _ _ _ _ _ _ _ _ _ _ _ _
    (consultTrack_cache_preserves _ _ _ _ _ _ _ _ _ _ h)

/-- After a boundary, the melody cache holds an entry for the part. -/
theorem boundaryWork_melody_some (gens : Generators) (temperature : ℚ) (part : SongPart)
    (captured : NoteSequence) (capture_start_time : ℚ)
    (response_start_time response_duration tick_duration now : ℚ) (mc bc dc : Cache) :
    (cacheGet (boundaryWork gens temperature part captured capture_start_time
        response_start_time response_duration tick_duration now mc bc dc).melody_cache
      part.name).isSome = true := by
  simp only [boundaryWork, consultAll]
  exact latency_push_melody_isSome _ _ _ _ _ _ _ _ _ _ _ _
    (consultTrack_cache_some _ _ _ _ _ _ _ _ _)

/-- After a boundary, the bass cache holds an entry for the part. -/
theorem boundaryWork_bass_some (gens : Generators) (temperature : ℚ) (part : SongPart)
    (captured : NoteSequence) (capture_start_time : ℚ)
    (response_start_time response_duration tick_duration now : ℚ) (mc bc dc : Cache) :
    (cacheGet (boundaryWork gens temperature part captured capture_start_time
        response_start_time response_duration tick_duration now mc bc dc).bass_cache
      part.name).isSome = true := by
  simp only [boundaryWork, consultAll]
  exact latency_push_bass_isSome _ _ _ _ _ _ _ _ _ _ _ _
    (consultTrack_cache_some _ _ _ _ _ _ _ _ _)

/-- After a boundary, the drum cache holds an entry for the part. -/
theorem boundaryWork_drum_some (gens : Generators) (temperature : ℚ) (part : SongPart)
    (captured : NoteSequence) (capture_start_time : ℚ)
    (response_start_time response_duration tick_duration now : ℚ) (mc bc dc : Cache) :
    (cacheGet (boundaryWork gens temperature part captured capture_start_time
        response_start_time response_duration tick_duration now mc bc dc).drum_cache
      part.name).isSome = true := by
  simp only [boundaryWork, consultAll]
  exact latency_push_drum_isSome _ _ _ _ _ _ _ _ _ _ _ _
    (consultTrack_cache_some _ _ _ _ _ _ _ _ _)

/-- An entry rebuilt from its own fields (structure eta at the option level). -/
theorem cacheGet_eta (c : Cache) (k : String) {item : CacheItem}
    (h : cacheGet c k = some item) : ∃ a, cacheGet c k = some ⟨item.sequence, a⟩ :=
  ⟨item.response_start_time, by rw [h]⟩

/-- Melody-track facts of one tick: existing cache entries keep their
sequence; the melody generator fires at most once, never when the entry
exists, and when it fires the entry exists afterwards. -/
theorem processTick_melody (env : Env) (s : RunState) (t : Tick) (n : String) :
    (∀ (k : String) (item : CacheItem), cacheGet s.melody_cache k = some item →
      ∃ a, cacheGet (processTick env s t).1.melody_cache k = some ⟨item.sequence, a⟩) ∧
    callCount 0 n (processTick env s t).2.gen_calls ≤ 1 ∧
    ((cacheGet s.melody_cache n).isSome = true →
      callCount 0 n (processTick env s t).2.gen_calls = 0) ∧
    (callCount 0 n (processTick env s t).2.gen_calls = 1 →
      (cacheGet (processTick env s t).1.melody_cache n).isSome = true) := by
  simp only [processTick, tickBody]
  repeat' split
  all_goals dsimp only
  all_goals first
    | exact ⟨fun k item h => cacheGet_eta _ _ h,
        by simp [callCount], fun _ => by simp [callCount],
        fun hc => by simp [callCount] at hc⟩
    | exact ⟨fun k item h => boundaryWork_melody_preserves _ _ _ _ _ _ _ _ _ _ _ _ _ h,
        by rw [boundaryWork_melody_count]; split <;> omega,
        fun hs => by
          rw [boundaryWork_melody_count]
          split
          · rename_i hcond
            obtain ⟨he, hf⟩ := hcond
            rw [he] at hs
            rw [hs] at hf
            simp at hf
          · rfl,
        fun hc => by
          rw [boundaryWork_melody_count] at hc
          split at hc
          · rename_i hcond
            rw [hcond.1]
            exact boundaryWork_melody_some _ _ _ _ _ _ _ _ _ _ _ _
          · simp at hc⟩

/-- Bass-track facts of one tick, mirroring the melody-track facts. -/
theorem processTick_bass (env : Env) (s : RunState) (t : Tick) (n : String) :
    (∀ (k : String) (item : CacheItem), cacheGet s.bass_cache k = some item →
      ∃ a, cacheGet (processTick env s t).1.bass_cache k = some ⟨item.sequence, a⟩) ∧
    callCount 1 n (processTick env s t).2.gen_calls ≤ 1 ∧
    ((cacheGet s.bass_cache n).isSome = true →
      callCount 1 n (processTick env s t).2.gen_calls = 0) ∧
    (callCount 1 n (processTick env s t).2.gen_calls = 1 →
      (cacheGet (processTick env s t).1.bass_cache n).isSome = true) := by
  simp only [processTick, tickBody]
  repeat' split
  all_goals dsimp only
  all_goals first
    | exact ⟨fun k item h => cacheGet_eta _ _ h,
        by simp [callCount], fun _ => by simp [callCount],
        fun hc => by simp [callCount] at hc⟩
    | exact ⟨fun k item h => boundaryWork_bass_preserves _ _ _ _ _ _ _ _ _ _ _ _ _ h,
        by rw [boundaryWork_bass_count]; split <;> omega,
        fun hs => by
          rw [boundaryWork_bass_count]
          split
          · rename_i hcond
            obtain ⟨he, hf⟩ := hcond
            rw [he] at hs
            rw [hs] at hf
            simp at hf
          · rfl,
        fun hc => by
          rw [boundaryWork_bass_count] at hc
          split at hc
          · rename_i hcond
            rw [hcond.1]
            exact boundaryWork_bass_some _ _ _ _ _ _ _ _ _ _ _ _
          · simp at hc⟩

/-- Drum-track facts of one tick, mirroring the melody-track facts. -/
theorem processTick_drum (env : Env) (s : RunState) (t : Tick) (n : String) :
    (∀ (k : String) (item : CacheItem), cacheGet s.drum_cache k = some item →
      ∃ a, cacheGet (processTick env s t).1.drum_cache k = some ⟨item.sequence, a⟩) ∧
    callCount 2 n (processTick env s t).2.gen_calls ≤ 1 ∧
    ((cacheGet s.drum_cache n).isSome = true →
      callCount 2 n (processTick env s t).2.gen_calls = 0) ∧
    (callCount 2 n (processTick env s t).2.gen_calls = 1 →
      (cacheGet (processTick env s t).1.drum_cache n).isSome = true) := by
  simp only [processTick, tickBody]
  repeat' split
  all_goals dsimp only
  all_goals first
    | exact ⟨fun k item h => cacheGet_eta _ _ h,
        by simp [callCount], fun _ => by simp [callCount],
        fun hc => by simp [callCount] at hc⟩
    | exact ⟨fun k item h => boundaryWork_drum_preserves _ _ _ _ _ _ _ _ _ _ _ _ _ h,
        by rw [boundaryWork_drum_count]; split <;> omega,
        fun hs => by
          rw [boundaryWork_drum_count]
          split
          · rename_i hcond
            obtain ⟨he, hf⟩ := hcond
            rw [he] at hs
            rw [hs] at hf
            simp at hf
          · rfl,
        fun hc => by
          rw [boundaryWork_drum_count] at hc
          split at hc
          · rename_i hcond
            rw [hcond.1]
            exact boundaryWork_drum_some _ _ _ _ _ _ _ _ _ _ _ _
          · simp at hc⟩

/-- Total number of generator invocations for one generator index and part
name across a run's logs. -/
def runCallCount (gen_index : ℕ) (name : String) (logs : List TickLog) : ℕ :=
  (logs.map fun l => callCount gen_index name l.gen_calls).sum

/-- Unfolding `runCallCount` over one tick. -/
theorem runCallCount_cons (gen_index : ℕ) (name : String) (l : TickLog)
    (ls : List TickLog) :
    runCallCount gen_index name (l :: ls) =
      callCount gen_index name l.gen_calls + runCallCount gen_index name ls := by
  simp [runCallCount]

/-- Across any run, an existing melody-cache entry keeps its sequence. -/
theorem runTicks_melody_stable (env : Env) (n : String) :
    ∀ (ticks : List Tick) (s : RunState) (item : CacheItem),
      cacheGet s.melody_cache n = some item →
      ∃ a, cacheGet (runTicks env s ticks).1.melody_cache n = some ⟨item.sequence, a⟩ := by
  intro ticks
  induction ticks with
  | nil => intro s item h; exact cacheGet_eta _ _ h
  | cons t rest ih =>
      intro s item h
      by_cases hfin : s.finished = true
      · rw [runTicks_finished env s (t :: rest) hfin]
        exact cacheGet_eta _ _ h
      · have hf : s.finished = false := by revert hfin; cases s.finished <;> simp
        simp only [runTicks, hf, Bool.false_eq_true, if_false]
        obtain ⟨a, ha⟩ := (processTick_melody env s t n).1 n item h
        obtain ⟨a2, ha2⟩ := ih (processTick env s t).1 ⟨item.sequence, a⟩ ha
        exact ⟨a2, ha2⟩

/-- Across any run, an existing bass-cache entry keeps its sequence. -/
theorem runTicks_bass_stable (env : Env) (n : String) :
    ∀ (ticks : List Tick) (s : RunState) (item : CacheItem),
      cacheGet s.bass_cache n = some item →
      ∃ a, cacheGet (runTicks env s ticks).1.bass_cache n = some ⟨item.sequence, a⟩ := by
  intro ticks
  induction ticks with
  | nil => intro s item h; exact cacheGet_eta _ _ h
  | cons t rest ih =>
      intro s item h
      by_cases hfin : s.finished = true
      · rw [runTicks_finished env s (t :: rest) hfin]
        exact cacheGet_eta _ _ h
      · have hf : s.finished = false := by revert hfin; cases s.finished <;> simp
        simp only [runTicks, hf, Bool.false_eq_true, if_false]
        obtain ⟨a, ha⟩ := (processTick_bass env s t n).1 n item h
        obtain ⟨a2, ha2⟩ := ih (processTick env s t).1 ⟨item.sequence, a⟩ ha
        exact ⟨a2, ha2⟩

/-- Across any run, an existing drum-cache entry keeps its sequence. -/
theorem runTicks_drum_stable (env : Env) (n : String) :
    ∀ (ticks : List Tick) (s : RunState) (item : CacheItem),
      cacheGet s.drum_cache n = some item →
      ∃ a, cacheGet (runTicks env s ticks).1.drum_cache n = some ⟨item.sequence, a⟩ := by
  intro ticks
  induction ticks with
  | nil => intro s item h; exact cacheGet_eta _ _ h
  | cons t rest ih =>
      intro s item h
      by_cases hfin : s.finished = true
      · rw [runTicks_finished env s (t :: rest) hfin]
        exact cacheGet_eta _ _ h
      · have hf : s.finished = false := by revert hfin; cases s.finished <;> simp
        simp only [runTicks, hf, Bool.false_eq_true, if_false]
        obtain ⟨a, ha⟩ := (processTick_drum env s t n).1 n item h
        obtain ⟨a2, ha2⟩ := ih (processTick env s t).1 ⟨item.sequence, a⟩ ha
        exact ⟨a2, ha2⟩

/-- Across any run, the melody generator fires at most once per part name,
and not at all when the entry already exists. -/
theorem runTicks_melody_count (env : Env) (n : String) :
    ∀ (ticks : List Tick) (s : RunState),
      runCallCount 0 n (runTicks env s ticks).2 ≤
        if (cacheGet s.melody_cache n).isSome then 0 else 1 := by
  intro ticks
  induction ticks with
  | nil => intro s; simp only [runTicks, runCallCount, List.map_nil, List.sum_nil]; split <;> omega
  | cons t rest ih =>
      intro s
      by_cases hfin : s.finished = true
      · rw [runTicks_finished env s (t :: rest) hfin]
        simp only [runCallCount, List.map_nil, List.sum_nil]
        split <;> omega
      · have hf : s.finished = false := by revert hfin; cases s.finished <;> simp
        simp only [runTicks, hf, Bool.false_eq_true, if_false]
        rw [runCallCount_cons]
        have hm := processTick_melody env s t n
        have hrest := ih (processTick env s t).1
        rcases hsome : (cacheGet s.melody_cache n).isSome with _ | _
        · simp only [Bool.false_eq_true, if_false]
          rcases Nat.eq_zero_or_pos (callCount 0 n (processTick env s t).2.gen_calls) with hz | hp
          · rw [hz]
            have hb : runCallCount 0 n (runTicks env (processTick env s t).1 rest).2 ≤ 1 := by
              refine le_trans hrest ?_
              split <;> omega
            omega
          · have h1 : callCount 0 n (processTick env s t).2.gen_calls = 1 :=
              le_antisymm hm.2.1 hp
            have hnext := hm.2.2.2 h1
            rw [hnext] at hrest
            simp at hrest
            omega
        · have h0 := hm.2.2.1 hsome
          obtain ⟨item, hit⟩ := Option.isSome_iff_exists.mp hsome
          obtain ⟨a, ha⟩ := hm.1 n item hit
          have hns : (cacheGet (processTick env s t).1.melody_cache n).isSome = true := by
            rw [ha]; rfl
          rw [hns] at hrest
          simp at hrest
          rw [h0]
          simp [hrest]

/-- Across any run, the bass generator fires at most once per part name, and
not at all when the entry already exists. -/
theorem runTicks_bass_count (env : Env) (n : String) :
    ∀ (ticks : List Tick) (s : RunState),
      runCallCount 1 n (runTicks env s ticks).2 ≤
        if (cacheGet s.bass_cache n).isSome then 0 else 1 := by
  intro ticks
  induction ticks with
  | nil => intro s; simp only [runTicks, runCallCount, List.map_nil, List.sum_nil]; split <;> omega
  | cons t rest ih =>
      intro s
      by_cases hfin : s.finished = true
      · rw [runTicks_finished env s (t :: rest) hfin]
        simp only [runCallCount, List.map_nil, List.sum_nil]
        split <;> omega
      · have hf : s.finished = false := by revert hfin; cases s.finished <;> simp
        simp only [runTicks, hf, Bool.false_eq_true, if_false]
        rw [runCallCount_cons]
        have hm := processTick_bass env s t n
        have hrest := ih (processTick env s t).1
        rcases hsome : (cacheGet s.bass_cache n).isSome with _ | _
        · simp only [Bool.false_eq_true, if_false]
          rcases Nat.eq_zero_or_pos (callCount 1 n (processTick env s t).2.gen_calls) with hz | hp
          · rw [hz]
            have hb : runCallCount 1 n (runTicks env (processTick env s t).1 rest).2 ≤ 1 := by
              refine le_trans hrest ?_
              split <;> omega
            omega
          · have h1 : callCount 1 n (processTick env s t).2.gen_calls = 1 :=
              le_antisymm hm.2.1 hp
            have hnext := hm.2.2.2 h1
            rw [hnext] at hrest
            simp at hrest
            omega
        · have h0 := hm.2.2.1 hsome
          obtain ⟨item, hit⟩ := Option.isSome_iff_exists.mp hsome
          obtain ⟨a, ha⟩ := hm.1 n item hit
          have hns : (cacheGet (processTick env s t).1.bass_cache n).isSome = true := by
            rw [ha]; rfl
          rw [hns] at hrest
          simp at hrest
          rw [h0]
          simp [hrest]

/-- Across any run, the drum generator fires at most once per part name, and
not at all when the entry already exists. -/
theorem runTicks_drum_count (env : Env) (n : String) :
    ∀ (ticks : List Tick) (s : RunState),
      runCallCount 2 n (runTicks env s ticks).2 ≤
        if (cacheGet s.drum_cache n).isSome then 0 else 1 := by
  intro ticks
  induction ticks with
  | nil => intro s; simp only [runTicks, runCallCount, List.map_nil, List.sum_nil]; split <;> omega
  | cons t rest ih =>
      intro s
      by_cases hfin : s.finished = true
      · rw [runTicks_finished env s (t :: rest) hfin]
        simp only [runCallCount, List.map_nil, List.sum_nil]
        split <;> omega
      · have hf : s.finished = false := by revert hfin; cases s.finished <;> simp
        simp only [runTicks, hf, Bool.false_eq_true, if_false]
        rw [runCallCount_cons]
        have hm := processTick_drum env s t n
        have hrest := ih (processTick env s t).1
        rcases hsome : (cacheGet s.drum_cache n).isSome with _ | _
        · simp only [Bool.false_eq_true, if_false]
          rcases Nat.eq_zero_or_pos (callCount 2 n (processTick env s t).2.gen_calls) with hz | hp
          · rw [hz]
            have hb : runCallCount 2 n (runTicks env (processTick env s t).1 rest).2 ≤ 1 := by
              refine le_trans hrest ?_
              split <;> omega
            omega
          · have h1 : callCount 2 n (processTick env s t).2.gen_calls = 1 :=
              le_antisymm hm.2.1 hp
            have hnext := hm.2.2.2 h1
            rw [hnext] at hrest
            simp at hrest
            omega
        · have h0 := hm.2.2.1 hsome
          obtain ⟨item, hit⟩ := Option.isSome_iff_exists.mp hsome
          obtain ⟨a, ha⟩ := hm.1 n item hit
          have hns : (cacheGet (processTick env s t).1.drum_cache n).isSome = true := by
            rw [ha]; rfl
          rw [hns] at hrest
          simp at hrest
          rw [h0]
          simp [hrest]

/-- C4: for a fixed part name and cached track, the generator fires at most
once per run (never when the entry already exists), an entry once stored
keeps its sequence for the rest of the run — a latency push moves only its
anchor — and the cache-hit branch returns exactly the stored sequence and
anchor without touching the cache or the generator. -/
theorem cache_hit_determinism (env : Env) (s : RunState) (ticks : List Tick) (n : String) :
    (runCallCount 0 n (runTicks env s ticks).2 ≤
      if (cacheGet s.melody_cache n).isSome then 0 else 1) ∧
    (runCallCount 1 n (runTicks env s ticks).2 ≤
      if (cacheGet s.bass_cache n).isSome then 0 else 1) ∧
    (runCallCount 2 n (runTicks env s ticks).2 ≤
      if (cacheGet s.drum_cache n).isSome then 0 else 1) ∧
    (∀ item : CacheItem, cacheGet s.melody_cache n = some item →
      ∃ a, cacheGet (runTicks env s ticks).1.melody_cache n = some ⟨item.sequence, a⟩) ∧
    (∀ item : CacheItem, cacheGet s.bass_cache n = some item →
      ∃ a, cacheGet (runTicks env s ticks).1.bass_cache n = some ⟨item.sequence, a⟩) ∧
    (∀ item : CacheItem, cacheGet s.drum_cache n = some item →
      ∃ a, cacheGet (runTicks env s ticks).1.drum_cache n = some ⟨item.sequence, a⟩) ∧
    (∀ (gen_index : ℕ) (cache : Cache) (captured : NoteSequence)
        (capture_start_time response_start_time response_duration : ℚ)
        (item : CacheItem),
      cacheGet cache n = some item →
      consultTrack env.gens env.temperature gen_index cache n captured capture_start_time
          response_start_time response_duration =
        ⟨item.sequence, item.response_start_time, cache, []⟩) :=
  ⟨runTicks_melody_count env n ticks s, runTicks_bass_count env n ticks s,
   runTicks_drum_count env n ticks s,
   fun item h => runTicks_melody_stable env n ticks s item h,
   fun item h => runTicks_bass_stable env n ticks s item h,
   fun item h => runTicks_drum_stable env n ticks s item h,
   fun gen_index cache captured cst rst rd item h =>
     consultTrack_hit env.gens env.temperature gen_index cache n captured cst rst rd h⟩

/-- A concrete cached melody sequence. -/
def demoSeq : NoteSequence := ⟨[⟨60, 100, 1, 2⟩], 2⟩

/-- A run state whose melody cache already holds part "A". -/
def demoCachedState : RunState :=
  {demoInit with melody_cache := [("A", ⟨demoSeq, 5⟩)]}

/-- Witness for C4: with a pre-populated melody entry for "A", one processed
tick leaves the stored sequence intact, and the hit branch reuses it without
any generator call. -/
theorem cache_hit_determinism_witness :
    (∃ a, cacheGet (runTicks demoEnv demoCachedState [demoTick 1]).1.melody_cache "A" =
      some ⟨demoSeq, a⟩) ∧
    consultTrack demoEnv.gens demoEnv.temperature 0 [("A", ⟨demoSeq, 5⟩)] "A"
        NoteSequence.empty 0 1 4 =
      ⟨demoSeq, 5, [("A", ⟨demoSeq, 5⟩)], []⟩ :=
  have h := cache_hit_determinism demoEnv demoCachedState [demoTick 1] "A"
  ⟨h.2.2.2.1 ⟨demoSeq, 5⟩ rfl,
   h.2.2.2.2.2.2 0 [("A", ⟨demoSeq, 5⟩)] NoteSequence.empty 0 1 4 ⟨demoSeq, 5⟩ rfl⟩

/-! ### C1: where the part advance fires -/

/-- C1 counterexample: in the spec scenario (structure `[A (4 bars), B (2
bars)]`, fixed tick duration 1), after five processed ticks `part_in_song` is
still 0 — no transition happens at the 5th tick boundary. -/
theorem part_advance_fifth_tick_cex :
    (runTicks demoEnv demoInit
      [demoTick 1, demoTick 2, demoTick 3, demoTick 4, demoTick 5]).1.part_in_song = 0 := by
  decide

/-- C1 amended: the transition from part 0 to part 1 fires at the 6th tick
boundary — the first tick whose incoming `bars_played_for_part` (then 5)
exceeds the 4-bar part duration — resetting `bars_played_for_part` to 0
before the tick's remaining work (it ends that tick at 1). -/
theorem part_advance_sixth_tick :
    (runTicks demoEnv demoInit
      [demoTick 1, demoTick 2, demoTick 3, demoTick 4, demoTick 5]).1.part_in_song = 0 ∧
    (runTicks demoEnv demoInit
      [demoTick 1, demoTick 2, demoTick 3, demoTick 4, demoTick 5,
       demoTick 6]).1.part_in_song = 1 ∧
    (runTicks demoEnv demoInit
      [demoTick 1, demoTick 2, demoTick 3, demoTick 4, demoTick 5,
       demoTick 6]).1.bars_played_for_part = 1 := by
  refine ⟨by decide, by decide, by decide⟩

/-! ### C8: class-level cache attributes versus instances -/

/-- The class-level attribute defaults of `SongStructureMidiInteraction`
(lines 115-118): one dictionary per cached track, bound at the type level. -/
structure ClassAttrs where
  MELODY_CACHE : Cache
  BASS_CACHE : Cache
  DRUM_CACHE : Cache
deriving Repr, DecidableEq

/-- Lines 116-118: the (empty) dictionaries bound when the class is created. -/
def classDefaults : ClassAttrs := ⟨[], [], []⟩

/-- The instance attribute slots of one constructed object; `none` models an
attribute never assigned on the instance, whose lookup falls through to the
class attribute. -/
structure InstanceAttrs where
  MELODY_CACHE : Option Cache
  BASS_CACHE : Option Cache
  DRUM_CACHE : Option Cache
deriving Repr, DecidableEq

/-- Python attribute lookup `self.X`: the instance attribute when assigned,
else the class attribute. -/
def attrLookup (cls : Cache) (inst : Option Cache) : Cache := inst.getD cls

/-- Lines 133-136 of `__init__`: the constructor assigns fresh instance
attributes — new dictionaries mapping every part name to `None` (the empty
dictionary in this model, since an all-`None` dictionary and an empty one are
indistinguishable through `cacheGet`) — shadowing the class-level defaults. -/
def instanceInit (_parts : List SongPart) : InstanceAttrs :=
  ⟨some [], some [], some []⟩

/-- A store `self.MELODY_CACHE[name] = item` through an instance: it mutates
whichever dictionary attribute lookup finds — the instance's own when
`__init__` assigned one, otherwise the shared class dictionary. -/
def storeMelody (cls : ClassAttrs) (inst : InstanceAttrs) (name : String)
    (item : CacheItem) : ClassAttrs × InstanceAttrs :=
  match inst.MELODY_CACHE with
  | some c => (cls, {inst with MELODY_CACHE := some (cacheSet c name item)})
  | none => ({cls with MELODY_CACHE := cacheSet cls.MELODY_CACHE name item}, inst)

/-- A store `self.BASS_CACHE[name] = item` through an instance. -/
def storeBass (cls : ClassAttrs) (inst : InstanceAttrs) (name : String)
    (item : CacheItem) : ClassAttrs × InstanceAttrs :=
  match inst.BASS_CACHE with
  | some c => (cls, {inst with BASS_CACHE := some (cacheSet c name item)})
  | none => ({cls with BASS_CACHE := cacheSet cls.BASS_CACHE name item}, inst)

/-- A store `self.DRUM_CACHE[name] = item` through an instance. -/
def storeDrum (cls : ClassAttrs) (inst : InstanceAttrs) (name : String)
    (item : CacheItem) : ClassAttrs × InstanceAttrs :=
  match inst.DRUM_CACHE with
  | some c => (cls, {inst with DRUM_CACHE := some (cacheSet c name item)})
  | none => ({cls with DRUM_CACHE := cacheSet cls.DRUM_CACHE name item}, inst)

/-- C8 counterexample: construct two instances over structure `[A]` and store
a melody entry for "A" through the first; looking "A" up through the second
instance (against the post-store class attributes) still yields `None` — the
entry is not visible through the other instance. -/
theorem class_cache_not_shared_cex :
    cacheGet
      (attrLookup
        (storeMelody classDefaults (instanceInit [partA]) "A"
          ⟨NoteSequence.empty, 0⟩).1.MELODY_CACHE
        (instanceInit [partA]).MELODY_CACHE)
      "A" = none := by
  decide

/-- C8 amended: the caches are declared as type-level mutable defaults, but
`__init__` rebinds fresh per-instance dictionaries, so a store through one
constructed instance lands in that instance's own dictionary — visible
through it, but never changing what another constructed instance reads, for
each of the three track caches. -/
theorem class_cache_per_instance (cls : ClassAttrs) (parts1 parts2 : List SongPart)
    (name k : String) (item : CacheItem) :
    (cacheGet (attrLookup
        (storeMelody cls (instanceInit parts1) name item).1.MELODY_CACHE
        (instanceInit parts2).MELODY_CACHE) k =
      cacheGet (attrLookup cls.MELODY_CACHE (instanceInit parts2).MELODY_CACHE) k) ∧
    (cacheGet (attrLookup
        (storeBass cls (instanceInit parts1) name item).1.BASS_CACHE
        (instanceInit parts2).BASS_CACHE) k =
      cacheGet (attrLookup cls.BASS_CACHE (instanceInit parts2).BASS_CACHE) k) ∧
    (cacheGet (attrLookup
        (storeDrum cls (instanceInit parts1) name item).1.DRUM_CACHE
        (instanceInit parts2).DRUM_CACHE) k =
      cacheGet (attrLookup cls.DRUM_CACHE (instanceInit parts2).DRUM_CACHE) k) ∧
    (cacheGet (attrLookup
        (storeMelody cls (instanceInit parts1) name item).1.MELODY_CACHE
        (storeMelody cls (instanceInit parts1) name item).2.MELODY_CACHE) name =
      some item) ∧
    (cacheGet (attrLookup
        (storeBass cls (instanceInit parts1) name item).1.BASS_CACHE
        (storeBass cls (instanceInit parts1) name item).2.BASS_CACHE) name =
      some item) ∧
    (cacheGet (attrLookup
        (storeDrum cls (instanceInit parts1) name item).1.DRUM_CACHE
        (storeDrum cls (instanceInit parts1) name item).2.DRUM_CACHE) name =
      some item) := by
  refine ⟨rfl, rfl, rfl, ?_, ?_, ?_⟩ <;>
    · show cacheGet (cacheSet [] name item) name = some item
      rw [cacheGet_cacheSet]
      simp
